import Mathlib

/-!
Verification development for the block-production core of an L2 rollup node
(`op-node/rollup/derive/engine_update.go` plus the builder API client).

Transactions are opaque byte strings, modelled as `List Nat`.  Go slice
indexing can panic on an out-of-range index; results that may panic are
modelled with an explicit `panic` constructor (or `Option`), so the runtime
behaviour of the Go code is captured, not idealised away.
-/

/-- The transaction-type byte of a deposit (privileged) transaction,
`types.DepositTxType` in go-ethereum. -/
def depositTxType : Nat := 0x7E

/-- Opaque transaction bytes (`eth.Data`). -/
abbrev Bytes := List Nat

/-- Faithful model of `isDepositTx`: errors on an empty transaction, otherwise
reports whether the first byte is the deposit transaction type. -/
def isDepositTx (opaqueTx : Bytes) : Except String Bool :=
  match opaqueTx with
  | [] => .error "empty transaction"
  | b :: _ => .ok (b == depositTxType)

/-- Loop body of `lastDeposit`: walks the transactions carrying the current
index `i` and the index `acc` of the last deposit seen so far (Go initialises
the accumulator to `0`). -/
def lastDepositAux : List Bytes → Nat → Nat → Except String Nat
  | [], _, acc => .ok acc
  | tx :: rest, i, acc =>
    match isDepositTx tx with
    | .error _ => .error ("invalid transaction at idx " ++ toString i)
    | .ok true => lastDepositAux rest (i + 1) i
    | .ok false => .ok acc

/-- Faithful model of `lastDeposit`: index of the last deposit of the initial
run of deposits, an error if a transaction looked at cannot be decoded. -/
def lastDeposit (txns : List Bytes) : Except String Nat :=
  lastDepositAux txns 0 0

/-- Outcome of the payload sanity check.  `panic` marks the Go runtime panic
that an out-of-range slice index raises. -/
inductive SanityResult where
  | ok
  | err (msg : String)
  | panic
deriving DecidableEq, Repr

/-- Loop of `sanityCheckPayload` over the transactions after the last deposit
(`for i := lastDeposit + 1; ...`): each must decode and must not be a
deposit. -/
def sanityScanRest : List Bytes → Nat → SanityResult
  | [], _ => .ok
  | tx :: rest, i =>
    match isDepositTx tx with
    | .error e => .err ("failed to decode transaction idx " ++ toString i ++ ": " ++ e)
    | .ok true => .err ("deposit tx (" ++ toString i ++ ") after other tx in l2 block")
    | .ok false => sanityScanRest rest (i + 1)

/-- Faithful model of `sanityCheckPayload` on the payload transaction list.
Note the Go code reads `payload.Transactions[0][0]` directly: when the first
transaction is the empty byte string this is an out-of-range index and the
program panics. -/
def sanityCheckPayload (txs : List Bytes) : SanityResult :=
  match txs with
  | [] => .err "no transactions in returned payload"
  | tx0 :: _ =>
    match tx0 with
    | [] => .panic
    | b :: _ =>
      if b = depositTxType then
        match lastDeposit txs with
        | .error e => .err ("failed to find last deposit: " ++ e)
        | .ok ld => sanityScanRest (txs.drop (ld + 1)) (ld + 1)
      else
        .err "first transaction was not deposit tx"

/-- A transaction is privileged (deposit-type) when it is non-empty and its
leading byte is the deposit transaction type. -/
def isPrivTx (tx : Bytes) : Bool := tx.head? == some depositTxType

/-- The claimed acceptance condition, following the spec sentence: the
transaction sequence is non-empty and the privileged transactions form a
contiguous, possibly-empty prefix — no privileged transaction appears after
any non-privileged one. -/
def ValidatorAcceptsSpec (txs : List Bytes) : Prop :=
  txs ≠ [] ∧
    ∀ j, j < txs.length → ∀ i, i < j →
      isPrivTx (txs.getD j []) = true → isPrivTx (txs.getD i []) = true

/-- The amended acceptance condition: additionally every transaction is
non-empty (decodable) and the privileged prefix is non-empty (the first
transaction is privileged). -/
def ValidatorAcceptsAmended (txs : List Bytes) : Prop :=
  txs ≠ [] ∧ (∀ tx ∈ txs, tx ≠ []) ∧ isPrivTx (txs.headD []) = true ∧
    ∀ j, j < txs.length → ∀ i, i < j →
      isPrivTx (txs.getD j []) = true → isPrivTx (txs.getD i []) = true

instance (txs : List Bytes) : Decidable (ValidatorAcceptsSpec txs) := by
  unfold ValidatorAcceptsSpec
  exact inferInstance

instance (txs : List Bytes) : Decidable (ValidatorAcceptsAmended txs) := by
  unfold ValidatorAcceptsAmended
  exact inferInstance

lemma isPrivTx_nil : isPrivTx [] = false := rfl

lemma isPrivTx_cons (b : Nat) (t : Bytes) : isPrivTx (b :: t) = (b == depositTxType) := rfl

lemma isPrivTx_true_ne_nil {tx : Bytes} (h : isPrivTx tx = true) : tx ≠ [] := by
  intro he
  subst he
  simp [isPrivTx] at h

lemma drop_length_takeWhile (p : Bytes → Bool) (l : List Bytes) :
    l.drop (l.takeWhile p).length = l.dropWhile p := by
  induction l with
  | nil => rfl
  | cons x xs ih =>
    by_cases h : p x
    · simp [List.takeWhile_cons, List.dropWhile_cons, h, ih]
    · simp [List.takeWhile_cons, List.dropWhile_cons, h]

lemma lastDepositAux_ok (l : List Bytes) : ∀ i : Nat,
    (l.dropWhile isPrivTx).head? ≠ some [] →
    lastDepositAux l (i + 1) i = .ok (i + (l.takeWhile isPrivTx).length) := by
  induction l with
  | nil => intro i _; simp [lastDepositAux]
  | cons tx rest ih =>
    intro i h
    match tx with
    | [] =>
      exfalso
      apply h
      simp [List.dropWhile_cons, isPrivTx_nil]
    | b :: t =>
      by_cases hb : (b == depositTxType) = true
      · have hp : isPrivTx (b :: t) = true := by rw [isPrivTx_cons]; exact hb
        have hd : (rest.dropWhile isPrivTx).head? ≠ some [] := by
          rwa [List.dropWhile_cons, if_pos hp] at h
        have hrec := ih (i + 1) hd
        simp only [lastDepositAux, isDepositTx, hb, hrec, List.takeWhile_cons, hp, if_true]
        simp [Nat.add_comm, Nat.add_assoc, Nat.add_left_comm]
      · have hp : isPrivTx (b :: t) = false := by
          rw [isPrivTx_cons]; exact Bool.not_eq_true _ ▸ (by simpa using hb)
        simp only [lastDepositAux, isDepositTx, hb, List.takeWhile_cons, hp, if_false,
          Bool.false_eq_true, List.takeWhile_nil]
        simp

lemma lastDepositAux_error (l : List Bytes) : ∀ i : Nat,
    (l.dropWhile isPrivTx).head? = some [] →
    ∃ e, lastDepositAux l (i + 1) i = .error e := by
  induction l with
  | nil => intro i h; simp at h
  | cons tx rest ih =>
    intro i h
    match tx with
    | [] => exact ⟨"invalid transaction at idx " ++ toString (i + 1), rfl⟩
    | b :: t =>
      by_cases hb : (b == depositTxType) = true
      · have hp : isPrivTx (b :: t) = true := by rw [isPrivTx_cons]; exact hb
        have hd : (rest.dropWhile isPrivTx).head? = some [] := by
          rwa [List.dropWhile_cons, if_pos hp] at h
        obtain ⟨e, he⟩ := ih (i + 1) hd
        exact ⟨e, by simp [lastDepositAux, isDepositTx, hb, he]⟩
      · exfalso
        have hp : isPrivTx (b :: t) = false := by
          rw [isPrivTx_cons]; simpa using hb
        rw [List.dropWhile_cons, if_neg (by simp [hp])] at h
        simp at h

lemma sanityScanRest_ok_iff (l : List Bytes) : ∀ i : Nat,
    sanityScanRest l i = .ok ↔ ∀ tx ∈ l, tx ≠ [] ∧ isPrivTx tx = false := by
  induction l with
  | nil => intro i; simp [sanityScanRest]
  | cons tx rest ih =>
    intro i
    rw [List.forall_mem_cons]
    match tx with
    | [] => simp [sanityScanRest, isDepositTx]
    | b :: t =>
      by_cases hb : (b == depositTxType) = true
      · simp [sanityScanRest, isDepositTx, hb, isPrivTx_cons]
      · simp [sanityScanRest, isDepositTx, hb, isPrivTx_cons, ih (i + 1)]

lemma sanityCheckPayload_ok_iff (txs : List Bytes) :
    sanityCheckPayload txs = .ok ↔
      ∃ b t rest, txs = (b :: t) :: rest ∧ b = depositTxType ∧
        ∀ tx ∈ rest.dropWhile isPrivTx, tx ≠ [] ∧ isPrivTx tx = false := by
  match txs with
  | [] => simp [sanityCheckPayload]
  | [] :: rest => simp [sanityCheckPayload]
  | (b :: t) :: rest =>
    by_cases hb : b = depositTxType
    case neg =>
      simp only [sanityCheckPayload, if_neg hb]
      constructor
      · intro h; cases h
      · rintro ⟨b', t', rest', heq, hb', -⟩
        rw [List.cons.injEq, List.cons.injEq] at heq
        exact absurd (heq.1.1.trans hb') hb
    case pos =>
      subst hb
      by_cases hh : (rest.dropWhile isPrivTx).head? = some []
      · obtain ⟨e, he⟩ := lastDepositAux_error rest 0 hh
        have hld : lastDeposit ((depositTxType :: t) :: rest) = .error e := by
          simp only [lastDeposit, lastDepositAux, isDepositTx, beq_self_eq_true, if_true]
          simpa using he
        simp only [sanityCheckPayload, eq_self_iff_true, if_true, hld]
        constructor
        · intro h; cases h
        · rintro ⟨b', t', rest', heq, -, hall⟩
          rw [List.cons.injEq] at heq
          have hrest : rest = rest' := heq.2
          subst hrest
          have hmem : ([] : Bytes) ∈ rest.dropWhile isPrivTx := List.mem_of_mem_head? hh
          exact absurd rfl (hall [] hmem).1
      · have hok := lastDepositAux_ok rest 0 hh
        have hld : lastDeposit ((depositTxType :: t) :: rest) =
            .ok (rest.takeWhile isPrivTx).length := by
          simp only [lastDeposit, lastDepositAux, isDepositTx, beq_self_eq_true, if_true]
          simpa using hok
        have hdrop : ((depositTxType :: t) :: rest).drop ((rest.takeWhile isPrivTx).length + 1) =
            rest.dropWhile isPrivTx := by
          rw [List.drop_succ_cons, drop_length_takeWhile]
        simp only [sanityCheckPayload, eq_self_iff_true, if_true, hld, hdrop,
          sanityScanRest_ok_iff]
        constructor
        · intro h
          exact ⟨depositTxType, t, rest, rfl, rfl, h⟩
        · rintro ⟨b', t', rest', heq, -, hall⟩
          rw [List.cons.injEq] at heq
          have hrest : rest = rest' := heq.2
          subst hrest
          exact hall

example : sanityCheckPayload [] = .err "no transactions in returned payload" := by decide
example : sanityCheckPayload [[0x7E], [0x7E], [1], [2]] = .ok := by decide
example : sanityCheckPayload [[0x7E], [1], [0x7E]] ≠ .ok := by decide
example : sanityCheckPayload [[1], [0x7E]] ≠ .ok := by decide
example : sanityCheckPayload [[1]] ≠ .ok := by decide
example : sanityCheckPayload [[]] = .panic := by decide
example : sanityCheckPayload [[0x7E], []] ≠ .ok := by decide

lemma dropWhile_getElem_zero_not (p : Bytes → Bool) (l : List Bytes)
    (h : 0 < (l.dropWhile p).length) : p ((l.dropWhile p)[0]) = false := by
  have hz := List.dropWhile_get_zero_not p l h
  simpa using hz

lemma rest_getD_drop (rest : List Bytes) (hsplit :
    rest.takeWhile isPrivTx ++ rest.dropWhile isPrivTx = rest) {n : Nat}
    (hn : n < rest.length) (hk : (rest.takeWhile isPrivTx).length ≤ n) :
    rest.getD n [] =
      (rest.dropWhile isPrivTx).getD (n - (rest.takeWhile isPrivTx).length) [] := by
  have hlen : (rest.takeWhile isPrivTx).length + (rest.dropWhile isPrivTx).length
      = rest.length := by
    rw [← List.length_append, hsplit]
  have hd : n - (rest.takeWhile isPrivTx).length < (rest.dropWhile isPrivTx).length := by
    omega
  rw [List.getD_eq_getElem _ _ hn, List.getD_eq_getElem _ _ hd]
  have h1 := List.getElem_of_eq hsplit.symm hn
  rw [h1, List.getElem_append_right hk]

lemma priv_index_iff (rest : List Bytes)
    (hall : ∀ tx ∈ rest.dropWhile isPrivTx, tx ≠ [] ∧ isPrivTx tx = false)
    {n : Nat} (hn : n < rest.length) :
    isPrivTx (rest.getD n []) = true ↔ n < (rest.takeWhile isPrivTx).length := by
  have hsplit := List.takeWhile_append_dropWhile isPrivTx rest
  have hlen : (rest.takeWhile isPrivTx).length + (rest.dropWhile isPrivTx).length
      = rest.length := by
    rw [← List.length_append, hsplit]
  constructor
  · intro hP
    by_contra hnk
    push_neg at hnk
    have hd : n - (rest.takeWhile isPrivTx).length < (rest.dropWhile isPrivTx).length := by
      omega
    have he := rest_getD_drop rest hsplit hn hnk
    have hmem : rest.getD n [] ∈ rest.dropWhile isPrivTx := by
      rw [he, List.getD_eq_getElem _ _ hd]
      exact List.getElem_mem hd
    rw [(hall _ hmem).2] at hP
    cases hP
  · intro hk
    have h1 : rest.getD n [] = (rest.takeWhile isPrivTx).getD n [] := by
      rw [List.getD_eq_getElem _ _ hn, List.getD_eq_getElem _ _ hk]
      have h2 := List.getElem_of_eq hsplit.symm hn
      rw [h2, List.getElem_append_left hk]
    rw [h1, List.getD_eq_getElem _ _ hk]
    exact List.mem_takeWhile_imp (List.getElem_mem hk)

/-- C1 (counterexample). The claim accepts the single non-privileged
transaction `[1]` (an empty privileged prefix) and the sequence
`[[0x7E], []]` (privileged prefix followed by an undecodable empty
transaction), but `sanityCheckPayload` rejects both, so acceptance is not
equivalent to the claimed condition. -/
theorem c1_validator_iff_counterexample :
    ¬ (sanityCheckPayload [[1]] = SanityResult.ok ↔ ValidatorAcceptsSpec [[1]]) ∧
      ¬ (sanityCheckPayload [[0x7E], []] = SanityResult.ok ↔
          ValidatorAcceptsSpec [[0x7E], []]) := by
  constructor
  · intro h
    exact absurd (h.mpr (by decide)) (by decide)
  · intro h
    exact absurd (h.mpr (by decide)) (by decide)

/-- C1 (amended). The Payload Validator accepts exactly when the transaction
sequence is non-empty, every transaction is non-empty (decodable), the first
transaction is privileged (deposit-type), and no privileged transaction
appears after any non-privileged one — i.e. the privileged transactions form
a contiguous NON-empty prefix; the empty sequence is always rejected. -/
theorem c1_validator_accepts_iff (txs : List Bytes) :
    sanityCheckPayload txs = SanityResult.ok ↔ ValidatorAcceptsAmended txs := by
  rw [sanityCheckPayload_ok_iff]
  constructor
  · rintro ⟨b, t, rest, rfl, rfl, hall⟩
    refine ⟨by simp, ?_, by simp [isPrivTx_cons], ?_⟩
    · intro tx htx
      rcases List.mem_cons.mp htx with h0 | hr
      · subst h0; simp
      · have hsplit := List.takeWhile_append_dropWhile isPrivTx rest
        rw [← hsplit] at hr
        rcases List.mem_append.mp hr with hl | hd
        · exact isPrivTx_true_ne_nil (List.mem_takeWhile_imp hl)
        · exact (hall tx hd).1
    · intro j hj i hij hPj
      match i, hij with
      | 0, _ => simp [isPrivTx_cons]
      | i + 1, hij =>
        match j, hij, hj, hPj with
        | j + 1, hij, hj, hPj =>
          rw [List.getD_cons_succ] at hPj ⊢
          have hj2 : j < rest.length := by simpa using hj
          have hi2 : i < rest.length := by omega
          have hk := (priv_index_iff rest hall hj2).mp hPj
          exact (priv_index_iff rest hall hi2).mpr (by omega)
  · rintro ⟨hne, hnonempty, hhead, hidx⟩
    match txs, hne with
    | tx0 :: rest, _ =>
      match tx0, hnonempty tx0 (by simp) with
      | b :: t, _ =>
        have hb : b = depositTxType := by
          have : isPrivTx (b :: t) = true := by simpa using hhead
          rw [isPrivTx_cons] at this
          exact beq_iff_eq.mp this
        refine ⟨b, t, rest, rfl, hb, ?_⟩
        intro tx htxd
        have htxr : tx ∈ rest := (List.dropWhile_sublist isPrivTx).mem htxd
        refine ⟨hnonempty tx (List.mem_cons_of_mem _ htxr), ?_⟩
        obtain ⟨m, hm, hget⟩ := List.mem_iff_getElem.mp htxd
        have hsplit := List.takeWhile_append_dropWhile isPrivTx rest
        have hlen : (rest.takeWhile isPrivTx).length + (rest.dropWhile isPrivTx).length
            = rest.length := by
          rw [← List.length_append, hsplit]
        match m, hm, hget with
        | 0, hm, hget =>
          rw [← hget]
          exact dropWhile_getElem_zero_not isPrivTx rest hm
        | m + 1, hm, hget =>
          by_contra hP
          rw [Bool.not_eq_false] at hP
          set k := (rest.takeWhile isPrivTx).length with hkdef
          have hkm : k + (m + 1) < rest.length := by omega
          have hrestP : isPrivTx (rest.getD (k + (m + 1)) []) = true := by
            rw [rest_getD_drop rest hsplit hkm (by omega)]
            have hsub : k + (m + 1) - k = m + 1 := by omega
            rw [hsub, List.getD_eq_getElem _ _ hm, hget]
            exact hP
          have hJ : k + (m + 1) + 1 < (((b :: t) :: rest).length) := by
            simp
            omega
          have htxsP : isPrivTx (((b :: t) :: rest).getD (k + (m + 1) + 1) []) = true := by
            rw [List.getD_cons_succ]
            exact hrestP
          have hI := hidx (k + (m + 1) + 1) hJ (k + 1) (by omega) htxsP
          rw [List.getD_cons_succ] at hI
          have hkr : k < rest.length := by omega
          have hdlen : 0 < (rest.dropWhile isPrivTx).length := by omega
          have hzero : rest.getD k [] = (rest.dropWhile isPrivTx).getD 0 [] := by
            rw [rest_getD_drop rest hsplit hkr (by omega)]
            simp
          rw [hzero, List.getD_eq_getElem _ _ hdlen] at hI
          rw [dropWhile_getElem_zero_not isPrivTx rest hdlen] at hI
          cases hI

/-!
Engine-side model.  Network collaborators (engine, conductor, builder) are
nondeterministic: each call's response is an explicit oracle argument, so a
run of an operation is a pure function of the payload and the responses.
Results that a Go nil-pointer dereference would abort are `Option`-valued,
with `none` standing for the runtime panic.
-/

/-- Payload execution status reported by the engine
(`eth.ExecutionValid`, `eth.ExecutionInvalid`, ...). -/
inductive ExecutionStatus where
  | valid
  | invalid
  | invalidBlockHash
  | syncing
  | accepted
deriving DecidableEq, Repr

/-- Machine-readable code of an engine input error (`eth.InputError.Code`);
`other` stands for every code the dispatch does not name. -/
inductive InputErrCode where
  | invalidForkchoiceState
  | invalidPayloadAttributes
  | other
deriving DecidableEq, Repr

/-- Severity of a block insertion failure (`BlockInsertionErrType`). -/
inductive BlockInsertionErrType where
  | ok
  | temporaryErr
  | prestateErr
  | payloadErr
deriving DecidableEq, Repr

/-- The forkchoice pointer triple (`eth.ForkchoiceState`). -/
structure ForkchoiceState where
  headBlockHash : Nat
  safeBlockHash : Nat
  finalizedBlockHash : Nat
deriving DecidableEq, Repr

/-- The candidate block body (`eth.ExecutionPayload`), restricted to the
fields this core reads. -/
structure ExecutionPayload where
  transactions : List Bytes
  blockHash : Nat
  blockNumber : Nat
deriving DecidableEq, Repr

/-- `eth.ExecutionPayloadEnvelope`: a payload plus the out-of-band parent
beacon block root (a nullable pointer in Go, hence `Option`). -/
structure ExecutionPayloadEnvelope where
  executionPayload : ExecutionPayload
  parentBeaconBlockRoot : Option Nat
deriving DecidableEq, Repr

/-- Outcome of one `eng.ForkchoiceUpdate` call: a result carrying a payload
status and a nullable payload id, an error tagged `eth.InputError`, or an
untagged transport error. -/
inductive FcuOutcome where
  | ok (status : ExecutionStatus) (payloadID : Option Nat)
  | inputErr (code : InputErrCode)
  | transportErr (msg : String)
deriving DecidableEq, Repr

/-- Result triple of `startPayload`. -/
structure StartResult where
  id : Nat
  errTyp : BlockInsertionErrType
  err : Option String
deriving DecidableEq, Repr

/-- Faithful model of `startPayload`: one forkchoice-update-with-attributes
call, its response classified into the four severities. -/
def startPayload (fcuRes : FcuOutcome) : StartResult :=
  match fcuRes with
  | .transportErr m =>
    ⟨0, .temporaryErr, some ("failed to create new block via forkchoice: " ++ m)⟩
  | .inputErr .invalidForkchoiceState =>
    ⟨0, .prestateErr,
      some "pre-block-creation forkchoice update was inconsistent with engine, need reset to resolve"⟩
  | .inputErr .invalidPayloadAttributes =>
    ⟨0, .payloadErr, some "payload attributes are not valid, cannot build block"⟩
  | .inputErr .other =>
    ⟨0, .prestateErr, some "unexpected error code in forkchoice-updated response"⟩
  | .ok st pid =>
    match st with
    | .invalid => ⟨0, .payloadErr, some "forkchoice update status error"⟩
    | .invalidBlockHash => ⟨0, .payloadErr, some "forkchoice update status error"⟩
    | .valid =>
      match pid with
      | none => ⟨0, .temporaryErr, some "nil id in forkchoice result when expecting a valid ID"⟩
      | some id => ⟨id, .ok, none⟩
    | _ => ⟨0, .temporaryErr, some "forkchoice update status error"⟩

/-- Result of one `insertPayload` run: severity, error, the final async
gossip cache, the final forkchoice triple, and which engine calls were
reached. -/
structure InsertResult where
  errTyp : BlockInsertionErrType
  err : Option String
  gossip : Option ExecutionPayloadEnvelope
  fcFinal : ForkchoiceState
  newPayloadCalled : Bool
  fcuCalled : Bool
deriving DecidableEq, Repr

/-- Faithful model of `insertPayload`: validate, commit to the conductor,
begin gossip, submit to the engine, then advance forkchoice.  `gossip0` is
the async gossip cache on entry; `commitRes`, `newPayloadRes` and `fcuRes`
are the collaborators' responses.  `none` marks the Go panic raised by the
sanity check on a first transaction that is the empty byte string. -/
def insertPayload (fc : ForkchoiceState) (updateSafe : Bool)
    (gossip0 : Option ExecutionPayloadEnvelope)
    (commitRes : Except String Unit)
    (newPayloadRes : Except String ExecutionStatus)
    (fcuRes : FcuOutcome)
    (envelope : ExecutionPayloadEnvelope) : Option InsertResult :=
  match sanityCheckPayload envelope.executionPayload.transactions with
  | .panic => none
  | .err e => some ⟨.payloadErr, some e, gossip0, fc, false, false⟩
  | .ok =>
    match commitRes with
    | .error e =>
      some ⟨.temporaryErr, some ("failed to commit unsafe payload to conductor: " ++ e),
        gossip0, fc, false, false⟩
    | .ok _ =>
      -- agossip.Gossip(envelope): begin gossiping as soon as possible
      let g1 : Option ExecutionPayloadEnvelope := some envelope
      match newPayloadRes with
      | .error e =>
        some ⟨.temporaryErr, some ("failed to insert execution payload: " ++ e),
          g1, fc, true, false⟩
      | .ok status =>
        if status = .invalid ∨ status = .invalidBlockHash then
          -- agossip.Clear()
          some ⟨.payloadErr, some "new payload status error", none, fc, true, false⟩
        else if status ≠ .valid then
          some ⟨.temporaryErr, some "new payload status error", g1, fc, true, false⟩
        else
          let fc1 : ForkchoiceState :=
            { fc with
              headBlockHash := envelope.executionPayload.blockHash
              safeBlockHash :=
                if updateSafe then envelope.executionPayload.blockHash
                else fc.safeBlockHash }
          match fcuRes with
          | .inputErr .invalidForkchoiceState =>
            -- agossip.Clear(): fail post-payload, so it is a payload error
            some ⟨.payloadErr,
              some "post-block-creation forkchoice update was inconsistent with engine, need reset to resolve",
              none, fc1, true, true⟩
          | .inputErr _ =>
            -- agossip.Clear()
            some ⟨.prestateErr, some "unexpected error code in forkchoice-updated response",
              none, fc1, true, true⟩
          | .transportErr m =>
            some ⟨.temporaryErr,
              some ("failed to make the new L2 block canonical via forkchoice: " ++ m),
              g1, fc1, true, true⟩
          | .ok st2 _ =>
            -- agossip.Clear() runs before the final status check
            if st2 ≠ .valid then
              some ⟨.payloadErr, some "forkchoice update status error", none, fc1, true, true⟩
            else
              some ⟨.ok, none, none, fc1, true, true⟩

/-- Consensus data versions carried by a builder response
(`consensusspec.DataVersion`); only Deneb is supported. -/
inductive DataVersion where
  | bellatrix
  | capella
  | deneb
  | electra
deriving DecidableEq, Repr

/-- Faithful model (beacon-root aspect) of
`versionedExecutionPayloadToExecutionPayloadEnvelope`: a non-Deneb version is
an error; the converted envelope carries the builder payload with
`ParentBeaconBlockRoot` set to nil. -/
def versionedExecutionPayloadToExecutionPayloadEnvelope (version : DataVersion)
    (payload : ExecutionPayload) : Except String ExecutionPayloadEnvelope :=
  if version ≠ .deneb then .error "unsupported data version"
  else .ok ⟨payload, none⟩

/-- The observable outcome of the builder race in
`getPayloadWithBuilderPayload`: either the single-slot channel delivered a
builder envelope before the 500 ms deadline, or the deadline fired first —
both on builder-side failure (the goroutine cancels the deadline context)
and on timeout. -/
inductive RaceOutcome where
  | builderDelivered (envelope : ExecutionPayloadEnvelope) (profit : Nat)
  | builderAbsent
deriving DecidableEq, Repr

/-- Result quadruple of `getPayloadWithBuilderPayload`. -/
structure GetPayloadResult where
  engineEnvelope : Option ExecutionPayloadEnvelope
  builderEnvelope : Option ExecutionPayloadEnvelope
  profit : Option Nat
  err : Option String
deriving DecidableEq, Repr

/-- Faithful model of `getPayloadWithBuilderPayload`.  `enabled` is
`builder.Enabled()`, `engineRes` the synchronously awaited `eng.GetPayload`
result, `race` the select outcome.  When the builder result is selected the
code writes `result.envelope.ParentBeaconBlockRoot = envelope.ParentBeaconBlockRoot`;
with a nil engine envelope (engine fetch errored) that dereference panics,
modelled as `none`. -/
def getPayloadWithBuilderPayload (enabled : Bool)
    (engineRes : Except String ExecutionPayloadEnvelope)
    (race : RaceOutcome) : Option GetPayloadResult :=
  if !enabled then
    match engineRes with
    | .ok env => some ⟨some env, none, none, none⟩
    | .error e => some ⟨none, none, none, some e⟩
  else
    match race with
    | .builderAbsent =>
      match engineRes with
      | .ok env => some ⟨some env, none, none, none⟩
      | .error e => some ⟨none, none, none, some e⟩
    | .builderDelivered benv profit =>
      match engineRes with
      | .error _ => none
      | .ok env =>
        some ⟨some env,
          some { benv with parentBeaconBlockRoot := env.parentBeaconBlockRoot },
          some profit, none⟩

/-- Responses to the collaborator calls one `insertPayload` run makes. -/
structure InsertOracle where
  commitRes : Except String Unit
  newPayloadRes : Except String ExecutionStatus
  fcuRes : FcuOutcome
deriving Repr

/-- Result triple of `confirmPayload`, plus the final gossip cache. -/
structure ConfirmResult where
  out : Option ExecutionPayloadEnvelope
  errTyp : BlockInsertionErrType
  err : Option String
  gossip : Option ExecutionPayloadEnvelope
deriving DecidableEq, Repr

/-- Faithful model of `confirmPayload`: reuse a cached envelope from the
async gossiper when present, otherwise fetch via the race coordinator; on a
fetch error return TemporaryErr; insert the builder envelope first when one
was obtained and fall back to the engine envelope if that insertion errors.
The gossip cache threads through both insertion attempts.  `none` marks a
propagated Go panic (sanity-check index panic, or inserting a nil engine
envelope). -/
def confirmPayload (fc : ForkchoiceState) (updateSafe : Bool)
    (gossip0 : Option ExecutionPayloadEnvelope)
    (enabled : Bool)
    (engineRes : Except String ExecutionPayloadEnvelope)
    (race : RaceOutcome)
    (builderOracle engineOracle : InsertOracle) : Option ConfirmResult :=
  match (match gossip0 with
         | some cached => some (⟨some cached, none, none, none⟩ : GetPayloadResult)
         | none => getPayloadWithBuilderPayload enabled engineRes race) with
  | none => none
  | some f =>
    match f.err with
    | some e =>
      some ⟨none, .temporaryErr, some ("failed to get execution payload: " ++ e), gossip0⟩
    | none =>
      match f.builderEnvelope with
      | some benv =>
        match insertPayload fc updateSafe gossip0 builderOracle.commitRes
            builderOracle.newPayloadRes builderOracle.fcuRes benv with
        | none => none
        | some r1 =>
          if r1.err = none then
            some ⟨some benv, r1.errTyp, r1.err, r1.gossip⟩
          else
            match f.engineEnvelope with
            | none => none
            | some eenv =>
              match insertPayload fc updateSafe r1.gossip engineOracle.commitRes
                  engineOracle.newPayloadRes engineOracle.fcuRes eenv with
              | none => none
              | some r2 => some ⟨some eenv, r2.errTyp, r2.err, r2.gossip⟩
      | none =>
        match f.engineEnvelope with
        | none => none
        | some eenv =>
          match insertPayload fc updateSafe gossip0 engineOracle.commitRes
              engineOracle.newPayloadRes engineOracle.fcuRes eenv with
          | none => none
          | some r2 => some ⟨some eenv, r2.errTyp, r2.err, r2.gossip⟩

lemma startPayload_errTyp_ok_iff (fcuRes : FcuOutcome) :
    (startPayload fcuRes).errTyp = .ok ↔ (startPayload fcuRes).err = none := by
  rcases fcuRes with ⟨st, pid⟩ | code | m
  · cases st <;> cases pid <;> simp [startPayload]
  · cases code <;> simp [startPayload]
  · simp [startPayload]

lemma insertPayload_errTyp_ok_iff (fc : ForkchoiceState) (us : Bool)
    (g0 : Option ExecutionPayloadEnvelope) (c : Except String Unit)
    (np : Except String ExecutionStatus) (f : FcuOutcome)
    (env : ExecutionPayloadEnvelope) (r : InsertResult)
    (h : insertPayload fc us g0 c np f env = some r) :
    r.errTyp = .ok ↔ r.err = none := by
  unfold insertPayload at h
  repeat' split at h
  all_goals cases h
  all_goals simp

/-- C2. When the engine's new-payload submission reports invalid or
invalid-block-hash, `insertPayload` returns PayloadErr with the async gossip
cache cleared; any other non-valid status yields TemporaryErr with the
gossiped envelope still cached. -/
theorem c2_new_payload_invalid_clears_gossip (fc : ForkchoiceState) (us : Bool)
    (g0 : Option ExecutionPayloadEnvelope) (fcuRes : FcuOutcome)
    (env : ExecutionPayloadEnvelope) (st : ExecutionStatus)
    (hs : sanityCheckPayload env.executionPayload.transactions = .ok) :
    ((st = .invalid ∨ st = .invalidBlockHash) →
      ∃ r, insertPayload fc us g0 (.ok ()) (.ok st) fcuRes env = some r ∧
        r.errTyp = .payloadErr ∧ r.gossip = none) ∧
    (st ≠ .invalid → st ≠ .invalidBlockHash → st ≠ .valid →
      ∃ r, insertPayload fc us g0 (.ok ()) (.ok st) fcuRes env = some r ∧
        r.errTyp = .temporaryErr ∧ r.gossip = some env) := by
  cases st with
  | valid =>
    refine ⟨?_, ?_⟩
    · rintro (h | h) <;> cases h
    · intro _ _ h3
      exact absurd rfl h3
  | invalid =>
    refine ⟨?_, ?_⟩
    · intro _
      exact ⟨⟨.payloadErr, some "new payload status error", none, fc, true, false⟩,
        by simp [insertPayload, hs], rfl, rfl⟩
    · intro h1 _ _
      exact absurd rfl h1
  | invalidBlockHash =>
    refine ⟨?_, ?_⟩
    · intro _
      exact ⟨⟨.payloadErr, some "new payload status error", none, fc, true, false⟩,
        by simp [insertPayload, hs], rfl, rfl⟩
    · intro _ h2 _
      exact absurd rfl h2
  | syncing =>
    refine ⟨?_, ?_⟩
    · rintro (h | h) <;> cases h
    · intro _ _ _
      exact ⟨⟨.temporaryErr, some "new payload status error", some env, fc, true, false⟩,
        by simp [insertPayload, hs], rfl, rfl⟩
  | accepted =>
    refine ⟨?_, ?_⟩
    · rintro (h | h) <;> cases h
    · intro _ _ _
      exact ⟨⟨.temporaryErr, some "new payload status error", some env, fc, true, false⟩,
        by simp [insertPayload, hs], rfl, rfl⟩

theorem c2_new_payload_invalid_clears_gossip_witness :
    (∃ r, insertPayload ⟨0, 0, 0⟩ false none (.ok ()) (.ok .invalid) (.ok .valid none)
        ⟨⟨[[0x7E]], 1, 1⟩, none⟩ = some r ∧
      r.errTyp = .payloadErr ∧ r.gossip = none) ∧
    (∃ r, insertPayload ⟨0, 0, 0⟩ false none (.ok ()) (.ok .syncing) (.ok .valid none)
        ⟨⟨[[0x7E]], 1, 1⟩, none⟩ = some r ∧
      r.errTyp = .temporaryErr ∧ r.gossip = some ⟨⟨[[0x7E]], 1, 1⟩, none⟩) := by
  constructor
  · exact (c2_new_payload_invalid_clears_gossip ⟨0, 0, 0⟩ false none (.ok .valid none)
      ⟨⟨[[0x7E]], 1, 1⟩, none⟩ .invalid (by decide)).1 (Or.inl rfl)
  · exact (c2_new_payload_invalid_clears_gossip ⟨0, 0, 0⟩ false none (.ok .valid none)
      ⟨⟨[[0x7E]], 1, 1⟩, none⟩ .syncing (by decide)).2
      (by decide) (by decide) (by decide)

/-- C3. When the conductor commit fails, `insertPayload` returns TemporaryErr,
leaves the gossip cache exactly as it was (gossip never begins), and makes no
engine call. -/
theorem c3_conductor_commit_fails_temporary (fc : ForkchoiceState) (us : Bool)
    (g0 : Option ExecutionPayloadEnvelope) (np : Except String ExecutionStatus)
    (f : FcuOutcome) (env : ExecutionPayloadEnvelope) (e : String)
    (hs : sanityCheckPayload env.executionPayload.transactions = .ok) :
    insertPayload fc us g0 (.error e) np f env =
      some ⟨.temporaryErr, some ("failed to commit unsafe payload to conductor: " ++ e),
        g0, fc, false, false⟩ := by
  simp [insertPayload, hs]

theorem c3_conductor_commit_fails_temporary_witness :
    insertPayload ⟨0, 0, 0⟩ false none (.error "conductor unreachable") (.ok .valid)
        (.ok .valid none) ⟨⟨[[0x7E]], 1, 1⟩, none⟩ =
      some ⟨.temporaryErr,
        some "failed to commit unsafe payload to conductor: conductor unreachable",
        none, ⟨0, 0, 0⟩, false, false⟩ :=
  c3_conductor_commit_fails_temporary ⟨0, 0, 0⟩ false none (.ok .valid) (.ok .valid none)
    ⟨⟨[[0x7E]], 1, 1⟩, none⟩ "conductor unreachable" (by decide)

/-- C4. A post-build forkchoice-update input error clears the gossip cache for
every tagged code, and the invalid-forkchoice-state code yields PayloadErr. -/
theorem c4_postbuild_inputerr_clears_gossip (fc : ForkchoiceState) (us : Bool)
    (g0 : Option ExecutionPayloadEnvelope) (env : ExecutionPayloadEnvelope)
    (code : InputErrCode)
    (hs : sanityCheckPayload env.executionPayload.transactions = .ok) :
    ∃ r, insertPayload fc us g0 (.ok ()) (.ok .valid) (.inputErr code) env = some r ∧
      r.gossip = none ∧ (code = .invalidForkchoiceState → r.errTyp = .payloadErr) := by
  cases code <;> simp [insertPayload, hs]

theorem c4_postbuild_inputerr_clears_gossip_witness :
    ∃ r, insertPayload ⟨0, 0, 0⟩ false none (.ok ()) (.ok .valid)
        (.inputErr .invalidForkchoiceState) ⟨⟨[[0x7E]], 1, 1⟩, none⟩ = some r ∧
      r.gossip = none ∧
      (InputErrCode.invalidForkchoiceState = .invalidForkchoiceState →
        r.errTyp = .payloadErr) :=
  c4_postbuild_inputerr_clears_gossip ⟨0, 0, 0⟩ false none ⟨⟨[[0x7E]], 1, 1⟩, none⟩
    .invalidForkchoiceState (by decide)

/-- C5 (counterexample). A forkchoice-update input error with an unrecognized
code produces PrestateErr, not the claimed TemporaryErr, in both the
pre-build (`startPayload`) and post-build (`insertPayload`) contexts. -/
theorem c5_unrecognized_code_counterexample :
    (startPayload (.inputErr .other)).errTyp = .prestateErr ∧
    (startPayload (.inputErr .other)).errTyp ≠ .temporaryErr ∧
    insertPayload ⟨0, 0, 0⟩ false none (.ok ()) (.ok .valid) (.inputErr .other)
        ⟨⟨[[0x7E]], 1, 1⟩, none⟩ =
      some ⟨.prestateErr, some "unexpected error code in forkchoice-updated response",
        none, ⟨1, 0, 0⟩, true, true⟩ := by
  refine ⟨rfl, by decide, ?_⟩
  rfl

/-- C5 (amended). A forkchoice-update input error whose code is neither
invalid-forkchoice-state nor invalid-payload-attributes is classified as
PrestateErr, in both the pre-build and post-build contexts. -/
theorem c5_unrecognized_code_prestate (code : InputErrCode)
    (h1 : code ≠ .invalidForkchoiceState) (h2 : code ≠ .invalidPayloadAttributes) :
    (startPayload (.inputErr code)).errTyp = .prestateErr ∧
    ∀ fc us g0 env, sanityCheckPayload env.executionPayload.transactions = .ok →
      ∃ r, insertPayload fc us g0 (.ok ()) (.ok .valid) (.inputErr code) env = some r ∧
        r.errTyp = .prestateErr := by
  cases code with
  | invalidForkchoiceState => exact absurd rfl h1
  | invalidPayloadAttributes => exact absurd rfl h2
  | other =>
    refine ⟨rfl, ?_⟩
    intro fc us g0 env hs
    simp [insertPayload, hs]

theorem c5_unrecognized_code_prestate_witness :
    (startPayload (.inputErr .other)).errTyp = .prestateErr :=
  (c5_unrecognized_code_prestate .other (by decide) (by decide)).1

/-- C6. When a builder envelope was obtained, `confirmPayload` inserts it
first; if that insertion succeeds the builder envelope is returned with its
OK result, and if it errors the operation falls back to inserting the engine
envelope and returns only the fallback's severity and error together with
the engine envelope. -/
theorem c6_builder_fallback (fc : ForkchoiceState) (us : Bool)
    (eenv benv : ExecutionPayloadEnvelope) (p : Nat)
    (bO eO : InsertOracle) (r1 : InsertResult)
    (hb : insertPayload fc us none bO.commitRes bO.newPayloadRes bO.fcuRes
        { benv with parentBeaconBlockRoot := eenv.parentBeaconBlockRoot } = some r1) :
    (r1.err = none →
      r1.errTyp = .ok ∧
      confirmPayload fc us none true (.ok eenv) (.builderDelivered benv p) bO eO =
        some ⟨some { benv with parentBeaconBlockRoot := eenv.parentBeaconBlockRoot },
          r1.errTyp, r1.err, r1.gossip⟩) ∧
    (r1.err ≠ none → ∀ r2,
      insertPayload fc us r1.gossip eO.commitRes eO.newPayloadRes eO.fcuRes eenv =
        some r2 →
      confirmPayload fc us none true (.ok eenv) (.builderDelivered benv p) bO eO =
        some ⟨some eenv, r2.errTyp, r2.err, r2.gossip⟩) := by
  constructor
  · intro hne
    refine ⟨(insertPayload_errTyp_ok_iff _ _ _ _ _ _ _ _ hb).mpr hne, ?_⟩
    simp [confirmPayload, getPayloadWithBuilderPayload, hb, hne]
  · intro hne r2 h2
    simp [confirmPayload, getPayloadWithBuilderPayload, hb, hne, h2]

theorem c6_builder_fallback_witness :
    confirmPayload ⟨0, 0, 0⟩ false none true (.ok ⟨⟨[[0x7E]], 1, 1⟩, some 7⟩)
        (.builderDelivered ⟨⟨[[0x7E]], 2, 2⟩, none⟩ 0)
        ⟨.error "conductor down", .ok .valid, .ok .valid none⟩
        ⟨.ok (), .ok .valid, .ok .valid none⟩ =
      some ⟨some ⟨⟨[[0x7E]], 1, 1⟩, some 7⟩, .ok, none, none⟩ :=
  (c6_builder_fallback ⟨0, 0, 0⟩ false ⟨⟨[[0x7E]], 1, 1⟩, some 7⟩ ⟨⟨[[0x7E]], 2, 2⟩, none⟩ 0
    ⟨.error "conductor down", .ok .valid, .ok .valid none⟩
    ⟨.ok (), .ok .valid, .ok .valid none⟩
    ⟨.temporaryErr, some "failed to commit unsafe payload to conductor: conductor down",
      none, ⟨0, 0, 0⟩, false, false⟩ rfl).2 (by decide)
    ⟨.ok, none, none, ⟨1, 0, 0⟩, true, true⟩ rfl

/-- C7. Whenever the Race Coordinator returns a builder envelope, that
envelope's parent-beacon-block-root equals the engine envelope's (the
builder's own value is unconditionally overwritten), and the engine envelope
is present. -/
theorem c7_builder_beacon_root_matches_engine (enabled : Bool)
    (engineRes : Except String ExecutionPayloadEnvelope) (race : RaceOutcome)
    (r : GetPayloadResult) (benv : ExecutionPayloadEnvelope)
    (hr : getPayloadWithBuilderPayload enabled engineRes race = some r)
    (hb : r.builderEnvelope = some benv) :
    ∃ eenv, r.engineEnvelope = some eenv ∧
      benv.parentBeaconBlockRoot = eenv.parentBeaconBlockRoot := by
  unfold getPayloadWithBuilderPayload at hr
  repeat' split at hr
  all_goals cases hr
  all_goals cases hb
  all_goals exact ⟨_, rfl, rfl⟩

theorem c7_builder_beacon_root_matches_engine_witness :
    ∃ eenv,
      (⟨some ⟨⟨[[0x7E]], 1, 1⟩, some 7⟩, some ⟨⟨[[0x7E]], 2, 2⟩, some 7⟩, some 0, none⟩ :
          GetPayloadResult).engineEnvelope = some eenv ∧
      (⟨⟨[[0x7E]], 2, 2⟩, some 7⟩ : ExecutionPayloadEnvelope).parentBeaconBlockRoot =
        eenv.parentBeaconBlockRoot :=
  c7_builder_beacon_root_matches_engine true (.ok ⟨⟨[[0x7E]], 1, 1⟩, some 7⟩)
    (.builderDelivered ⟨⟨[[0x7E]], 2, 2⟩, none⟩ 0) _ _ rfl rfl

lemma confirmPayload_errTyp_ok_iff (fc : ForkchoiceState) (us : Bool)
    (g0 : Option ExecutionPayloadEnvelope) (enabled : Bool)
    (engineRes : Except String ExecutionPayloadEnvelope) (race : RaceOutcome)
    (bO eO : InsertOracle) (r : ConfirmResult)
    (h : confirmPayload fc us g0 enabled engineRes race bO eO = some r) :
    r.errTyp = .ok ↔ r.err = none := by
  unfold confirmPayload at h
  cases g0 with
  | some cached =>
    dsimp only at h
    cases hi : insertPayload fc us (some cached) eO.commitRes eO.newPayloadRes
        eO.fcuRes cached with
    | none => rw [hi] at h; cases h
    | some r2 =>
      rw [hi] at h; try dsimp only at h
      cases h
      simpa using insertPayload_errTyp_ok_iff _ _ _ _ _ _ _ _ hi
  | none =>
    dsimp only at h
    cases hg : getPayloadWithBuilderPayload enabled engineRes race with
    | none => rw [hg] at h; cases h
    | some f =>
      rw [hg] at h; try dsimp only at h
      cases hfe : f.err with
      | some e => rw [hfe] at h; cases h; simp
      | none =>
        rw [hfe] at h; try dsimp only at h
        cases hfb : f.builderEnvelope with
        | some benv =>
          rw [hfb] at h; try dsimp only at h
          cases hi1 : insertPayload fc us none bO.commitRes bO.newPayloadRes
              bO.fcuRes benv with
          | none => rw [hi1] at h; cases h
          | some r1 =>
            rw [hi1] at h; try dsimp only at h
            by_cases hr1 : r1.err = none
            · rw [if_pos hr1] at h
              cases h
              simpa using insertPayload_errTyp_ok_iff _ _ _ _ _ _ _ _ hi1
            · rw [if_neg hr1] at h
              cases hfeng : f.engineEnvelope with
              | none => rw [hfeng] at h; cases h
              | some eenv =>
                rw [hfeng] at h; try dsimp only at h
                cases hi2 : insertPayload fc us r1.gossip eO.commitRes
                    eO.newPayloadRes eO.fcuRes eenv with
                | none => rw [hi2] at h; cases h
                | some r2 =>
                  rw [hi2] at h; try dsimp only at h
                  cases h
                  simpa using insertPayload_errTyp_ok_iff _ _ _ _ _ _ _ _ hi2
        | none =>
          rw [hfb] at h; try dsimp only at h
          cases hfeng : f.engineEnvelope with
          | none => rw [hfeng] at h; cases h
          | some eenv =>
            rw [hfeng] at h; try dsimp only at h
            cases hi2 : insertPayload fc us none eO.commitRes eO.newPayloadRes
                eO.fcuRes eenv with
            | none => rw [hi2] at h; cases h
            | some r2 =>
              rw [hi2] at h; try dsimp only at h
              cases h
              simpa using insertPayload_errTyp_ok_iff _ _ _ _ _ _ _ _ hi2

/-- C8. Each insertion-path operation returns severity OK exactly when its
error value is nil: `startPayload`, `insertPayload` and `confirmPayload` all
satisfy errTyp = OK iff err = none (whenever they return rather than
panic). -/
theorem c8_ok_iff_nil_error :
    (∀ fcuRes, (startPayload fcuRes).errTyp = .ok ↔ (startPayload fcuRes).err = none) ∧
    (∀ fc us g0 c np f env r, insertPayload fc us g0 c np f env = some r →
      (r.errTyp = .ok ↔ r.err = none)) ∧
    (∀ fc us g0 enabled engineRes race bO eO r,
      confirmPayload fc us g0 enabled engineRes race bO eO = some r →
      (r.errTyp = .ok ↔ r.err = none)) :=
  ⟨startPayload_errTyp_ok_iff,
   insertPayload_errTyp_ok_iff,
   confirmPayload_errTyp_ok_iff⟩

lemma sanityScanRest_ne_panic : ∀ (l : List Bytes) (i : Nat), sanityScanRest l i ≠ .panic := by
  intro l
  induction l with
  | nil => intro i; simp [sanityScanRest]
  | cons tx rest ih =>
    intro i
    match tx with
    | [] => simp [sanityScanRest, isDepositTx]
    | b :: t =>
      by_cases hb : (b == depositTxType) = true
      · simp [sanityScanRest, isDepositTx, hb]
      · simp only [sanityScanRest, isDepositTx, hb]
        exact ih (i + 1)

/-- C9. The Payload Validator is not total on non-empty transaction lists:
with a first transaction that is the empty byte string the Go code indexes
`Transactions[0][0]` out of range and panics instead of returning a
validation error; that is the only panicking input. -/
theorem c9_validator_panics_on_empty_first_tx :
    sanityCheckPayload [[]] = SanityResult.panic ∧
    ∀ txs : List Bytes, txs ≠ [] →
      (sanityCheckPayload txs = SanityResult.panic ↔ txs.headD [] = []) := by
  refine ⟨rfl, ?_⟩
  intro txs hne
  match txs with
  | [] :: rest => simp [sanityCheckPayload]
  | (b :: t) :: rest =>
    simp only [List.headD_cons]
    constructor
    · intro h
      exfalso
      simp only [sanityCheckPayload] at h
      by_cases hb : b = depositTxType
      · rw [if_pos hb] at h
        cases hld : lastDeposit ((b :: t) :: rest) with
        | error e => rw [hld] at h; cases h
        | ok ld =>
          rw [hld] at h
          exact sanityScanRest_ne_panic _ _ h
      · rw [if_neg hb] at h
        cases h
    · intro h
      simp at h

/-- C10. The Race Coordinator is not panic-free when the builder result is
selected: with the engine fetch errored (nil engine envelope) and a builder
delivery before the deadline, the beacon-root backfill dereferences a nil
pointer (modelled `none`); every non-panicking run that returns a builder
envelope had a successful engine fetch. -/
theorem c10_race_engine_error_panics :
    getPayloadWithBuilderPayload true (.error "engine: unknown payload")
        (.builderDelivered ⟨⟨[[0x7E]], 2, 2⟩, none⟩ 0) = none ∧
    ∀ (engineRes : Except String ExecutionPayloadEnvelope) (race : RaceOutcome)
      (r : GetPayloadResult) (benv : ExecutionPayloadEnvelope),
      getPayloadWithBuilderPayload true engineRes race = some r →
      r.builderEnvelope = some benv →
      ∃ env, engineRes = .ok env := by
  refine ⟨rfl, ?_⟩
  intro engineRes race r benv hr hb
  unfold getPayloadWithBuilderPayload at hr
  repeat' split at hr
  all_goals cases hr
  all_goals cases hb
  all_goals exact ⟨_, rfl⟩
